import Mathlib

/-!
Verification development for the OllamaIQ repository (src/app.py,
src/run_manager.py, src/ollama_etch_tester.py, src/db.py).

Shallow embedding conventions:
* Python ints are modelled as `Nat`/`Int`; Python floats appearing in the
  scoring arithmetic are modelled as exact rationals `ℚ` (the concrete
  values flowing through the scoring code are small enough that IEEE
  doubles behave like exact rationals on every expression we reason about).
* Python `int(x)` (truncation toward zero) is `pyInt`; Python `round(x, n)`
  (round-half-to-even) is `pyRound`.
* External effects (the Ollama chat endpoint, the sandbox subprocess,
  `json.loads`, and the `unicode_escape` codec) are oracle parameters.
* The global dict `RUNS` of run_manager.py is a map `String → Option RunR`.
-/

/-- Python whitespace class `\s` (ASCII part): space, tab, LF, CR, VT, FF. -/
def isPyWhitespace (c : Char) : Bool :=
  c = ' ' || c = '\t' || c = '\n' || c = '\r' || c = '\x0b' || c = '\x0c'

/-- Python regex word character `\w` (ASCII part): alphanumeric or underscore. -/
def isWordChar (c : Char) : Bool := c.isAlphanum || c = '_'

/-- Python `str.lstrip()` (whitespace variant). -/
def pyLstrip (s : String) : String := String.mk (s.toList.dropWhile isPyWhitespace)

/-- Python `str.strip()` (whitespace variant). -/
def pyStrip (s : String) : String :=
  String.mk (((s.toList.dropWhile isPyWhitespace).reverse.dropWhile isPyWhitespace).reverse)

/-- Containment of `needle` as a contiguous sublist of `hay`. -/
def listIsInfix (needle hay : List Char) : Bool :=
  (List.range (hay.length + 1)).any fun i => needle.isPrefixOf (hay.drop i)

/-- Python `needle in hay` on strings: substring containment. -/
def strContains (hay needle : String) : Bool := listIsInfix needle.toList hay.toList

/-- Python `int(x)` on a float: truncation toward zero. -/
def pyInt (x : ℚ) : ℤ := if 0 ≤ x then ⌊x⌋ else ⌈x⌉

/-- Round half to even on rationals (helper for Python `round`). -/
def roundHalfEven (x : ℚ) : ℤ :=
  let f : ℤ := ⌊x⌋
  let r : ℚ := x - f
  if r < 1/2 then f
  else if 1/2 < r then f + 1
  else if f % 2 = 0 then f else f + 1

/-- Python `round(x, n)` modelled on exact rationals. -/
def pyRound (n : ℕ) (x : ℚ) : ℚ := (roundHalfEven (x * 10 ^ n) : ℚ) / 10 ^ n

/-! ## run_manager.py — the run registry -/

/-- Run status values stored in `RUNS[run_id]["status"]`. -/
inductive St where
  | pending
  | running
  | done
  | error
deriving DecidableEq, Repr

/-- Run metadata handed to `create_run` by `start_run`
(`{'host': host, 'models': models or [], 'repeat': repeat}`). -/
structure MetaD where
  host : String
  models : List String
  repeatCount : ℕ
deriving DecidableEq, Repr

/-- One entry of the `RUNS` dict (run_manager.py, `create_run`). -/
structure RunR (σ : Type) where
  idStr : String
  status : St
  messages : List String
  progress : ℚ
  metadata : MetaD
  result : Option σ
deriving DecidableEq, Repr

/-- The global `RUNS` dict, as a map from run_id to entry. -/
def Registry (σ : Type) := String → Option (RunR σ)

/-- `if run_id in RUNS: <mutate RUNS[run_id]>` — update the entry at `id`
when present, leave the map unchanged otherwise. -/
def regUpdate {σ} (reg : Registry σ) (id : String) (f : RunR σ → RunR σ) : Registry σ :=
  fun k => if k = id then Option.map f (reg k) else reg k

/-- run_manager.create_run: insert a fresh pending entry at `run_id`
(the uuid4 token is an oracle argument). -/
def create_run {σ} (reg : Registry σ) (run_id : String) (meta : MetaD) : Registry σ :=
  fun k => if k = run_id then
    some ⟨run_id, .pending, [], 0, meta, none⟩
  else reg k

/-- run_manager.set_running. -/
def set_running {σ} (reg : Registry σ) (run_id : String) : Registry σ :=
  regUpdate reg run_id fun r => { r with status := .running }

/-- run_manager.append_message. -/
def append_message {σ} (reg : Registry σ) (run_id : String) (msg : String) : Registry σ :=
  regUpdate reg run_id fun r => { r with messages := r.messages ++ [msg] }

/-- run_manager.set_progress. -/
def set_progress {σ} (reg : Registry σ) (run_id : String) (pct : ℚ) : Registry σ :=
  regUpdate reg run_id fun r => { r with progress := pct }

/-- run_manager.set_result: status→"done", store result, progress→100. -/
def set_result {σ} (reg : Registry σ) (run_id : String) (res : σ) : Registry σ :=
  regUpdate reg run_id fun r => { r with status := .done, result := some res, progress := 100 }

/-- run_manager.set_error: status→"error", append the error message. -/
def set_error {σ} (reg : Registry σ) (run_id : String) (msg : String) : Registry σ :=
  regUpdate reg run_id fun r => { r with status := .error, messages := r.messages ++ [msg] }

/-! ## app.py — progress arithmetic of `_run_tests_sync`

`int(((idx - 1) / total) * 100)` and `int((idx / total) * 95)` on floats,
modelled as rational arithmetic with floor (both operands nonnegative). -/

/-- Progress written before testing model `idx` of `total`
(app.py line 130): `int(((idx - 1) / total) * 100)`. -/
def progressBefore (idx total : ℕ) : ℕ := ⌊((idx - 1 : ℕ) : ℚ) / (total : ℚ) * 100⌋₊

/-- Progress written after completing model `idx` of `total`
(app.py line 137): `int((idx / total) * 95)`. -/
def progressAfter (idx total : ℕ) : ℕ := ⌊((idx : ℕ) : ℚ) / (total : ℚ) * 95⌋₊

/-! ## app.py — the background body `bg` of `start_run`, viewed as the
sequence of run_manager mutations it performs on its run.

Message payloads never influence the run's status, so `appendMsg` is
recorded without its text. -/

/-- One registry mutation performed by `bg`/`_run_tests_sync` on its run. -/
inductive RegOp where
  | setRunning
  | appendMsg
  | setProgress (pct : ℕ)
  | setResult
  | setError
deriving DecidableEq, Repr

/-- Environment of one execution of `bg`:
* `listRaises` — `client.list()` raises inside `_run_tests_sync`
  (the path at app.py lines 102-107);
* `testsRaise` — listing succeeded but an exception escapes
  `_run_tests_sync` mid-loop (e.g. out of `test_model`), caught at
  app.py line 236; `raiseAfter` = models fully completed before it;
* `numModels` — number of selected models when listing succeeds;
* `dbOk` — whether `db.save_run(summary)` succeeds (app.py lines 227-233).
The `latest_results.json` file write appends one message whether it
succeeds or fails, so it needs no flag. -/
structure BgEnv where
  listRaises : Bool
  testsRaise : Bool
  raiseAfter : ℕ
  numModels : ℕ
  dbOk : Bool

/-- Mutations of one loop iteration of `_run_tests_sync`
(app.py lines 128-137) for models `1..upto` of `total`. -/
def modelLoopOps (total upto : ℕ) : List RegOp :=
  (List.range upto).flatMap fun k =>
    [.appendMsg, .setProgress (progressBefore (k + 1) total),
     .appendMsg, .setProgress (progressAfter (k + 1) total)]

/-- Mutations performed inside `_run_tests_sync` (app.py lines 99-142). -/
def runTestsSyncOps (env : BgEnv) : List RegOp :=
  if env.listRaises then [.setError]
  else if env.testsRaise then
    modelLoopOps env.numModels (min env.raiseAfter (env.numModels - 1)) ++
      [.appendMsg, .setProgress (progressBefore (min env.raiseAfter (env.numModels - 1) + 1) env.numModels)]
  else if env.numModels = 0 then []
  else modelLoopOps env.numModels env.numModels ++ [.setProgress 95]

/-- Mutations performed by `bg` after `_run_tests_sync` returns normally
(app.py lines 217-235): completion message, set_result, file-save message,
DB branch (message + second set_result on success, message on failure),
final set_progress 100. -/
def bgTailOps (env : BgEnv) : List RegOp :=
  [.appendMsg, .setResult, .appendMsg] ++
    (if env.dbOk then [.appendMsg, .setResult] else [.appendMsg]) ++
    [.setProgress 100]

/-- All registry mutations of one execution of `bg` (app.py lines 185-237). -/
def bgOps (env : BgEnv) : List RegOp :=
  [.setRunning, .appendMsg] ++
    (if env.listRaises = false ∧ env.testsRaise = true
     then runTestsSyncOps env ++ [.setError]
     else runTestsSyncOps env ++ bgTailOps env)

/-- Effect of one mutation on the run's status field. -/
def stepSt (s : St) : RegOp → St
  | .setRunning => .running
  | .setResult => .done
  | .setError => .error
  | _ => s

/-- Status values of the run along a sequence of mutations. -/
def traceFrom (s : St) : List RegOp → List St
  | [] => [s]
  | op :: ops => s :: traceFrom (stepSt s op) ops

/-- Final status of the run after a sequence of mutations. -/
def finalFrom (s : St) : List RegOp → St
  | [] => s
  | op :: ops => finalFrom (stepSt s op) ops

/-- Sequence of status values of the run over one execution of `bg`,
starting at "pending" (from `create_run`). -/
def statusTrace (env : BgEnv) : List St := traceFrom .pending (bgOps env)

/-- Final status of the run after one execution of `bg`. -/
def finalStatus (env : BgEnv) : St := finalFrom .pending (bgOps env)

/-- A single observable status step allowed by the spec's lifecycle:
unchanged, pending→running, or running→{done,error}. -/
def okStep (s t : St) : Bool :=
  s = t || (s = .pending && t = .running) ||
    (s = .running && (t = .done || t = .error))

/-- All adjacent pairs of the trace are allowed lifecycle steps. -/
def chainSt : List St → Bool
  | [] => true
  | [_] => true
  | a :: b :: r => okStep a b && chainSt (b :: r)

/-! ## ollama_etch_tester.py — the code sandbox runner `_run_code_safely` -/

/-- Python values occurring in coding test cases (inputs are int lists,
strings or ints; expected outputs are ints or strings). -/
inductive PyVal where
  | vInt (n : ℤ)
  | vStr (s : String)
  | vIntList (l : List ℤ)
deriving DecidableEq, Repr

/-- `repr(inp)` for the input field of a per-case record. -/
def reprPV : PyVal → String
  | .vInt n => toString n
  | .vStr s => "\x27" ++ s ++ "\x27"
  | .vIntList l => "[" ++ String.intercalate ", " (l.map toString) ++ "]"

/-- One element of the per-case `details` list returned by the sandbox. -/
inductive Detail where
  | errMsg (s : String)
  | caseRes (input : String) (expected : PyVal) (got : Option PyVal)
      (ok : Bool) (excMsg : Option String)
deriving DecidableEq, Repr

/-- The JSON object `json.loads` yields from the subprocess stdout, at the
granularity `_run_code_safely` inspects it: key-presence of `error`,
`passed`, `total`, `results` (`data.get(...)` semantics). -/
structure HarnessJson where
  errorField : Option String
  passed : Option ℤ
  total : Option ℤ
  results : Option (List Detail)
deriving DecidableEq, Repr

/-- Outcome of the `subprocess.run` call, as observed by `_run_code_safely`:
either `subprocess.TimeoutExpired`, or completion with (already-stripped)
stdout/stderr and the result of `json.loads(stdout)` (`none` = decode
error). Non-object JSON values (which would make `'error' in data` raise a
TypeError) are outside this model. -/
inductive ExecOutcome where
  | timeout
  | finished (stdout stderr : String) (parsed : Option HarnessJson)
deriving DecidableEq, Repr

/-- The deny-list of lines 286 of ollama_etch_tester.py, in source order. -/
def dangerousPatterns : List String :=
  ["subprocess", "socket", "requests", "eval(", "exec(", "__import__", "open(", "os.system"]

/-- ollama_etch_tester._run_code_safely (lines 275-382): static screening,
then the subprocess outcome is decoded into `(passed, total, details)`.
`timeoutS` is the wall-clock timeout argument (default 5). -/
def runCodeSafely (code_src : String) (test_cases : List (PyVal × PyVal))
    (timeoutS : ℕ) (outcome : ExecOutcome) : ℤ × ℤ × List Detail :=
  if code_src = "" then
    (0, test_cases.length, [.errMsg "No code extracted from response"])
  else
    match dangerousPatterns.find? (fun p => strContains code_src p) with
    | some p => (0, test_cases.length, [.errMsg ("Forbidden pattern: " ++ p)])
    | none =>
      match outcome with
      | .timeout =>
        (0, test_cases.length,
          [.errMsg ("Execution timeout (" ++ toString timeoutS ++ "s)")])
      | .finished stdout stderr parsed =>
        if stdout = "" then
          (0, test_cases.length,
            [.errMsg ("No output. Stderr: " ++ stderr.take 200)])
        else
          match parsed with
          | none =>
            (0, test_cases.length, [.errMsg ("Invalid JSON: " ++ stdout.take 100)])
          | some data =>
            match data.errorField with
            | some e => (0, test_cases.length, [.errMsg e])
            | none =>
              (data.passed.getD 0, data.total.getD test_cases.length,
               data.results.getD [])

/-- The flexible comparison of the generated harness (lines 329-331):
exact equality, falling back to whitespace-stripped equality when both
values are strings. -/
def harnessOk (result expected : PyVal) : Bool :=
  result = expected ||
    (match result, expected with
     | .vStr a, .vStr b => pyStrip a = pyStrip b
     | _, _ => false)

/-- One per-case record produced by the harness loop (lines 320-337),
given the located callable's behavior `fn` (`Except.error` = the call
raised). -/
def harnessCase (fn : PyVal → Except String PyVal) (c : PyVal × PyVal) : Detail :=
  match fn c.1 with
  | .ok r => .caseRes (reprPV c.1) c.2 (some r) (harnessOk r c.2) none
  | .error e => .caseRes (reprPV c.1) c.2 none false (some e)

/-- Whether a per-case record counts toward `passed`. -/
def harnessCasePassed (fn : PyVal → Except String PyVal) (c : PyVal × PyVal) : Bool :=
  match fn c.1 with
  | .ok r => harnessOk r c.2
  | .error _ => false

/-- The JSON object printed by the harness when it found a callable
(line 339): `{"passed": passed, "total": len(tests), "results": results}`. -/
def harnessJson (fn : PyVal → Except String PyVal)
    (tests : List (PyVal × PyVal)) : HarnessJson where
  errorField := none
  passed := some (tests.countP (harnessCasePassed fn ·))
  total := some tests.length
  results := some (tests.map (harnessCase fn))

/-- The JSON object printed by the harness when no callable was found
(line 317): `{"error": "No function found"}`. -/
def noFnJson : HarnessJson := ⟨some "No function found", none, none, none⟩

/-- The subprocess outcomes the harness itself can produce: a timeout, a
crash with no stdout, stdout that is not a single JSON document (e.g. the
tested source printed before the harness did), the no-callable report, or
the harness's own pass/total report. A source that suppresses the
harness's print and fabricates its own stdout falls outside this set. -/
def HonestOutcome (fn : PyVal → Except String PyVal)
    (tests : List (PyVal × PyVal)) (o : ExecOutcome) : Prop :=
  o = .timeout ∨
  (∃ stderr parsed, o = .finished "" stderr parsed) ∨
  (∃ stdout stderr, o = .finished stdout stderr none) ∨
  (∃ stdout stderr, o = .finished stdout stderr (some noFnJson)) ∨
  (∃ stdout stderr, o = .finished stdout stderr (some (harnessJson fn tests)))

/-- ollama_etch_tester._run_coding_tests lines 419-422:
`int((passed / total) * points) if total > 0 else 0`. -/
def pointsEarnedCode (passed total : ℤ) (points : ℕ) : ℤ :=
  if 0 < total then pyInt ((passed : ℚ) / (total : ℚ) * (points : ℚ)) else 0

/-! ## ollama_etch_tester.py — `_extract_code` (lines 222-272) -/

/-- First index at which `pat` occurs in `l`, if any. -/
def findSub (l pat : List Char) : Option ℕ :=
  (List.range (l.length + 1)).find? fun i => pat.isPrefixOf (l.drop i)

/-- The fenced-block branch of `_extract_code`: the regex
`` ```(?:python)?\s*([\s\S]*?)``` `` (case-insensitive), returning the
(unstripped) capture group when the regex matches. The regex matches
iff a closing fence follows the capture start of the first fence. -/
def fencedBlock (t : String) : Option String :=
  let l := t.toList
  let fence := "\x60\x60\x60".toList
  match findSub l fence with
  | none => none
  | some i =>
    let afterFence := l.drop (i + 3)
    let afterPy :=
      if (afterFence.take 6).map Char.toLower = "python".toList
      then afterFence.drop 6 else afterFence
    let rest := afterPy.dropWhile isPyWhitespace
    match findSub rest fence with
    | none => none
    | some j => some (String.mk (rest.take j))

/-- Matcher for the regex `def\s+\w+\s*\([^)]*\):` anchored at the head of
`l` (the character classes are disjoint, so greedy matching is exact). -/
def matchFuncAt (l : List Char) : Bool :=
  if "def".toList.isPrefixOf l then
    let r1 := l.drop 3
    match r1 with
    | [] => false
    | c :: _ =>
      if isPyWhitespace c then
        let r2 := r1.dropWhile isPyWhitespace
        match r2 with
        | [] => false
        | d :: _ =>
          if isWordChar d then
            let r4 := (r2.dropWhile isWordChar).dropWhile isPyWhitespace
            match r4 with
            | '(' :: r5 =>
              match r5.dropWhile (fun e => !(e = ')')) with
              | ')' :: ':' :: _ => true
              | _ => false
            | _ => false
          else false
      else false
  else false

/-- `re.search(r'def\s+\w+\s*\([^)]*\):', text)`: index of the leftmost
match, if any. -/
def findFuncDef (l : List Char) : Option ℕ :=
  (List.range (l.length + 1)).find? fun i => matchFuncAt (l.drop i)

/-- The line-collection loop of `_extract_code` (lines 236-261), with the
Python `break` rendered as returning the accumulator. State: remaining
lines, `in_function`, `base_indent`, reversed accumulator. -/
def collectLoop : List String → Bool → Option ℕ → List String → List String
  | [], _, _, acc => acc.reverse
  | line :: rest, inFn, base, acc =>
    if pyStrip line = "" then
      if inFn then collectLoop rest inFn base (line :: acc)
      else collectLoop rest inFn base acc
    else
      let cur := line.length - (pyLstrip line).length
      let st := pyStrip line
      if st.startsWith "def " then
        if inFn && base.isSome && decide (cur ≤ base.getD 0) then acc.reverse
        else collectLoop rest true (some cur) (line :: acc)
      else if inFn then
        if decide (cur ≤ base.getD 0) &&
            !(st.startsWith "#" || st.startsWith "\x22" || st.startsWith "\x27") then
          if !st.startsWith "return" && decide (cur = base.getD 0) then acc.reverse
          else collectLoop rest inFn base (line :: acc)
        else collectLoop rest inFn base (line :: acc)
      else collectLoop rest inFn base acc

/-- `'\n'.join(result).strip()` applied to the collected function lines of
`text[func_match.start():]`. -/
def collectFunction (code : String) : String :=
  pyStrip (String.intercalate "\n" (collectLoop (code.splitOn "\n") false none []))

/-- ollama_etch_tester._extract_code. The final escape-sequence step
(lines 266-271: `code.encode('utf-8').decode('unicode_escape')` with its
fallback) is the oracle `unescape`. -/
def extractCode (unescape : String → String) (text : Option String) : String :=
  match text with
  | none => ""
  | some t =>
    if t = "" then ""
    else
      match fencedBlock t with
      | some g => unescape (pyStrip g)
      | none =>
        match findFuncDef t.toList with
        | none => ""
        | some i => unescape (collectFunction (String.mk (t.toList.drop i)))

/-! ## ollama_etch_tester.py — smartness battery (lines 46-163) -/

/-- Python regex `\bPAT\b` at position `i` of `l` (the fixed patterns are
all digit strings, so both edges are word characters). -/
def boundaryMatchAt (l pat : List Char) (i : ℕ) : Bool :=
  pat.isPrefixOf (l.drop i) &&
  (decide (i = 0) || !isWordChar (l.getD (i - 1) ' ')) &&
  (decide (l.length ≤ i + pat.length) || !isWordChar (l.getD (i + pat.length) ' '))

/-- `bool(re.search(r'\bPAT\b', s))` for a word-character-only pattern. -/
def reWordB (pat : String) (s : String) : Bool :=
  (List.range (s.toList.length + 1)).any (boundaryMatchAt s.toList pat.toList)

/-- Result of `_chat_with_model` (lines 33-41): wall-clock latency, the
extracted response text, and the error message when `client.chat` raised.
The chat endpoint is external, so this is the oracle's granularity. -/
structure ChatRes where
  latency : ℚ
  text : Option String
  err : Option String

/-- Python truthiness of an optional string: not None and not empty. -/
def truthyText (o : Option String) : Bool :=
  match o with
  | some s => !(s = "")
  | none => false

/-- One entry of `SMARTNESS_TESTS`. -/
structure SmartTest where
  name : String
  prompt : String
  check : String → Bool
  points : ℕ
  category : String

/-- The fixed `SMARTNESS_TESTS` table (lines 46-108). -/
def smartnessTests : List SmartTest :=
  [ { name := "Basic Arithmetic",
      prompt := "What is 17 + 28? Reply with just the number.",
      check := fun r => reWordB "45" r, points := 10, category := "math" },
    { name := "Multiplication",
      prompt := "What is 12 × 15? Reply with just the number.",
      check := fun r => reWordB "180" r, points := 10, category := "math" },
    { name := "Word Problem",
      prompt := "A store sells apples for $2 each. If you buy 7 apples and pay with a $20 bill, how much change do you get? Just the number.",
      check := fun r => reWordB "6" r, points := 10, category := "math" },
    { name := "Sequence Pattern",
      prompt := "What comes next in this sequence: 2, 6, 12, 20, 30, ? Reply with just the number.",
      check := fun r => reWordB "42" r, points := 15, category := "logic" },
    { name := "Logical Deduction",
      prompt := "All roses are flowers. Some flowers fade quickly. Can we conclude that some roses fade quickly? Answer yes or no only.",
      check := fun r => strContains r.toLower "no", points := 15, category := "logic" },
    { name := "Comparison Logic",
      prompt := "If A > B, B > C, and C > D, is A > D? Answer yes or no only.",
      check := fun r => strContains r.toLower "yes" && !strContains r.toLower "no",
      points := 15, category := "logic" },
    { name := "Factual Knowledge",
      prompt := "What is the capital of France? Reply with just the city name.",
      check := fun r => strContains r.toLower "paris", points := 10, category := "knowledge" },
    { name := "Reading Comprehension",
      prompt := "Read this: \x27The blue car is faster than the red car. The green car is slower than the red car.\x27 Which car is the slowest? Reply with just the color.",
      check := fun r => strContains r.toLower "green", points := 15, category := "knowledge" } ]

/-- One entry of the `results` list of `_run_smartness_tests`. -/
structure SmartTestResult where
  name : String
  category : String
  points : ℕ
  passed : Bool
  latency_s : ℚ
  response : Option String
  error : Option String

/-- One iteration of the `_run_smartness_tests` loop (lines 120-145). -/
def runSmartTest (chat : String → String → ChatRes) (model : String)
    (t : SmartTest) : SmartTestResult :=
  let cr := chat model t.prompt
  { name := t.name, category := t.category, points := t.points,
    passed := if truthyText cr.text && cr.err.isNone
              then t.check (cr.text.getD "") else false,
    latency_s := pyRound 3 cr.latency,
    response := if truthyText cr.text then some ((cr.text.getD "").take 500) else cr.err,
    error := cr.err }

/-- Points earned over a list of smartness results. -/
def smartEarned (l : List SmartTestResult) : ℕ :=
  (l.map fun e => if e.passed then e.points else 0).sum

/-- The `category_scores` percentages dict (math/logic/knowledge). -/
structure CatScores where
  math : ℚ
  logic : ℚ
  knowledge : ℚ
deriving DecidableEq, Repr

/-- Percentage for one category bucket (lines 150-155). -/
def catPct (results : List SmartTestResult) (cat : String) : ℚ :=
  let es := results.filter (fun e => e.category = cat)
  let tot : ℕ := (es.map (fun e => e.points)).sum
  if 0 < tot then pyRound 1 ((smartEarned es : ℚ) / (tot : ℚ) * 100) else 0

/-- Return value of `_run_smartness_tests` (lines 157-163). -/
structure SmartnessResults where
  score : ℚ
  earned_points : ℕ
  total_points : ℕ
  category_scores : CatScores
  tests : List SmartTestResult

/-- ollama_etch_tester._run_smartness_tests. -/
def runSmartnessTests (chat : String → String → ChatRes) (model : String) :
    SmartnessResults :=
  let results := smartnessTests.map (runSmartTest chat model)
  let total : ℕ := (results.map (fun e => e.points)).sum
  let earned : ℕ := smartEarned results
  { score := if 0 < total then pyRound 1 ((earned : ℚ) / (total : ℚ) * 100) else 0,
    earned_points := earned, total_points := total,
    category_scores :=
      ⟨catPct results "math", catPct results "logic", catPct results "knowledge"⟩,
    tests := results }

/-! ## ollama_etch_tester.py — coding battery (lines 167-456) -/

/-- One entry of `CODING_TESTS`. -/
structure CodingTest where
  name : String
  difficulty : String
  prompt : String
  test_cases : List (PyVal × PyVal)
  points : ℕ

/-- The fixed `CODING_TESTS` table (lines 167-219). -/
def codingTests : List CodingTest :=
  [ { name := "Sum of List", difficulty := "easy",
      prompt := "Write a Python function called \x60solve(nums)\x60 that returns the sum of all numbers in the list.\nExample: solve([1, 2, 3]) should return 6\nReturn ONLY the function definition, no explanations.",
      test_cases := [(.vIntList [1, 2, 3], .vInt 6), (.vIntList [0, 0, 0], .vInt 0),
                     (.vIntList [-1, 1, 5], .vInt 5), (.vIntList [10], .vInt 10),
                     (.vIntList [], .vInt 0)],
      points := 25 },
    { name := "Find Maximum", difficulty := "easy",
      prompt := "Write a Python function called \x60solve(nums)\x60 that returns the maximum number in the list.\nExample: solve([1, 5, 3]) should return 5\nReturn ONLY the function definition, no explanations.",
      test_cases := [(.vIntList [1, 5, 3], .vInt 5), (.vIntList [-1, -5, -3], .vInt (-1)),
                     (.vIntList [7], .vInt 7), (.vIntList [0, 0, 1], .vInt 1)],
      points := 25 },
    { name := "Count Vowels", difficulty := "medium",
      prompt := "Write a Python function called \x60solve(text)\x60 that returns the count of vowels (a, e, i, o, u) in the string.\nExample: solve(\x22hello\x22) should return 2\nReturn ONLY the function definition, no explanations.",
      test_cases := [(.vStr "hello", .vInt 2), (.vStr "AEIOU", .vInt 5),
                     (.vStr "xyz", .vInt 0), (.vStr "Programming", .vInt 3),
                     (.vStr "", .vInt 0)],
      points := 30 },
    { name := "Reverse Words", difficulty := "medium",
      prompt := "Write a Python function called \x60solve(text)\x60 that reverses the order of words in a string.\nExample: solve(\x22hello world\x22) should return \x22world hello\x22\nReturn ONLY the function definition, no explanations.",
      test_cases := [(.vStr "hello world", .vStr "world hello"), (.vStr "a b c", .vStr "c b a"),
                     (.vStr "single", .vStr "single"), (.vStr "  spaced  ", .vStr "spaced")],
      points := 30 },
    { name := "Fibonacci Sequence", difficulty := "hard",
      prompt := "Write a Python function called \x60solve(n)\x60 that returns the nth Fibonacci number (0-indexed).\nF(0)=0, F(1)=1, F(n)=F(n-1)+F(n-2)\nExample: solve(6) should return 8 (sequence: 0,1,1,2,3,5,8)\nReturn ONLY the function definition, no explanations.",
      test_cases := [(.vInt 0, .vInt 0), (.vInt 1, .vInt 1), (.vInt 6, .vInt 8),
                     (.vInt 10, .vInt 55), (.vInt 15, .vInt 610)],
      points := 40 } ]

/-- One entry of the `results` list of `_run_coding_tests`. The
chat-error branch (lines 400-413) omits the `raw_response` key; that is
rendered as `none` here. -/
structure CodingTestResult where
  name : String
  difficulty : String
  points : ℕ
  earned : ℤ
  passed_tests : ℤ
  total_tests : ℤ
  latency_s : ℚ
  errorMsg : Option String
  code : Option String
  raw_response : Option String
  test_results : List Detail

/-- One iteration of the `_run_coding_tests` loop (lines 394-438); `i` is
the test's position, used to index the per-test subprocess oracle. -/
def runCodingTest (chat : String → String → ChatRes) (exec : ℕ → ExecOutcome)
    (unescape : String → String) (model : String) (i : ℕ) (t : CodingTest) :
    CodingTestResult :=
  let cr := chat model t.prompt
  match cr.err with
  | some e =>
    { name := t.name, difficulty := t.difficulty, points := t.points, earned := 0,
      passed_tests := 0, total_tests := t.test_cases.length,
      latency_s := pyRound 3 cr.latency, errorMsg := some e, code := none,
      raw_response := none, test_results := [] }
  | none =>
    let code := extractCode unescape cr.text
    let r := runCodeSafely code t.test_cases 5 (exec i)
    { name := t.name, difficulty := t.difficulty, points := t.points,
      earned := pointsEarnedCode r.1 r.2.1 t.points,
      passed_tests := r.1, total_tests := r.2.1,
      latency_s := pyRound 3 cr.latency, errorMsg := none,
      code := if code = "" then none else some (code.take 500),
      raw_response := if truthyText cr.text then some ((cr.text.getD "").take 300) else none,
      test_results := r.2.2.take 5 }

/-- The `difficulty_scores` percentages dict (easy/medium/hard). -/
structure DiffScores where
  easy : ℚ
  medium : ℚ
  hard : ℚ
deriving DecidableEq, Repr

/-- Percentage for one difficulty bucket (lines 443-448). -/
def diffPct (results : List CodingTestResult) (d : String) : ℚ :=
  let es := results.filter (fun e => e.difficulty = d)
  let tot : ℕ := (es.map (fun e => e.points)).sum
  if 0 < tot then pyRound 1 ((((es.map (fun e => e.earned)).sum : ℤ) : ℚ) / (tot : ℚ) * 100)
  else 0

/-- Return value of `_run_coding_tests` (lines 450-456). -/
structure CodingResults where
  score : ℚ
  earned_points : ℤ
  total_points : ℕ
  difficulty_scores : DiffScores
  tests : List CodingTestResult

/-- ollama_etch_tester._run_coding_tests. -/
def runCodingTests (chat : String → String → ChatRes) (exec : ℕ → ExecOutcome)
    (unescape : String → String) (model : String) : CodingResults :=
  let results := codingTests.enum.map fun p => runCodingTest chat exec unescape model p.1 p.2
  let total : ℕ := (results.map (fun e => e.points)).sum
  let earned : ℤ := (results.map (fun e => e.earned)).sum
  { score := if 0 < total then pyRound 1 ((earned : ℚ) / (total : ℚ) * 100) else 0,
    earned_points := earned, total_points := total,
    difficulty_scores :=
      ⟨diffPct results "easy", diffPct results "medium", diffPct results "hard"⟩,
    tests := results }

/-! ## ollama_etch_tester.py — `test_model` (lines 461-534) -/

/-- Insertion of one element into a sorted rational list. -/
def insSorted (x : ℚ) : List ℚ → List ℚ
  | [] => [x]
  | y :: ys => if x ≤ y then x :: y :: ys else y :: insSorted x ys

/-- Sorting, for `statistics.median`. -/
def sortQ : List ℚ → List ℚ
  | [] => []
  | x :: xs => insSorted x (sortQ xs)

/-- `statistics.mean` (0 on the empty list; only called on nonempty). -/
def meanQ (l : List ℚ) : ℚ := l.sum / (l.length : ℚ)

/-- `statistics.median`: middle of the sorted list, or the average of the
two middle elements for even length. -/
def medianQ (l : List ℚ) : ℚ :=
  let s := sortQ l
  let n := s.length
  if n % 2 = 1 then s.getD (n / 2) 0
  else (s.getD (n / 2 - 1) 0 + s.getD (n / 2) 0) / 2

/-- `min(l)` (0 on the empty list; only called on nonempty). -/
def minQ : List ℚ → ℚ
  | [] => 0
  | x :: xs => xs.foldl min x

/-- `max(l)` (0 on the empty list; only called on nonempty). -/
def maxQ : List ℚ → ℚ
  | [] => 0
  | x :: xs => xs.foldl max x

/-- The `latency_stats` dict of a model report. -/
structure LatencyStats where
  mean : Option ℚ
  median : Option ℚ
  min : Option ℚ
  max : Option ℚ
deriving DecidableEq, Repr

/-- `str(x)` for an optional string (`str(None)` is `"None"`). -/
def pyStrOfOptStr : Option String → String
  | some s => s
  | none => "None"

/-- One display line of the UI-compatibility `passes` lists. -/
structure PassLine where
  latency_s : ℚ
  response : String
deriving DecidableEq, Repr

/-- One entry of the report's `tests` list. -/
structure TestPasses where
  name : String
  passes : List PassLine
deriving DecidableEq, Repr

/-- Smartness display line (lines 496-501). -/
def smartPassLine (t : SmartTestResult) : PassLine :=
  { latency_s := t.latency_s,
    response := "[" ++ t.category.toUpper ++ "] " ++ t.name ++ ": " ++
      (if t.passed then "✓ PASS" else "✗ FAIL") ++ " (" ++ toString t.points ++
      "pts) - " ++ (pyStrOfOptStr t.response).take 100 }

/-- Coding display line (lines 503-513). -/
def codingPassLine (t : CodingTestResult) : PassLine :=
  let status :=
    (if 0 < t.passed_tests then "✓ " else "✗ ") ++
      toString t.passed_tests ++ "/" ++ toString t.total_tests
  let base := "[" ++ t.difficulty.toUpper ++ "] " ++ t.name ++ ": " ++ status ++
      " (" ++ toString t.earned ++ "/" ++ toString t.points ++ "pts)"
  { latency_s := t.latency_s,
    response :=
      if truthyText t.errorMsg then base ++ " - Error: " ++ t.errorMsg.getD ""
      else if truthyText t.code then base ++ "\nCode: " ++ (t.code.getD "").take 200 ++ "..."
      else base }

/-- The `smartness_details` dict. -/
structure SmartnessDetails where
  score : ℚ
  points : String
  categories : CatScores
deriving DecidableEq, Repr

/-- The `coding_details` dict. -/
structure CodingDetails where
  score : ℚ
  points : String
  difficulties : DiffScores
deriving DecidableEq, Repr

/-- The dict returned by `test_model` (lines 515-534). The two score
fields are `Option` because downstream consumers (app.py) read them with
`.get(...)`, which yields None on dicts lacking the key; `test_model`
itself always fills them. -/
structure Report where
  model : String
  latency_stats : LatencyStats
  smartness_score : Option ℚ
  code_score : Option ℚ
  smartness_details : SmartnessDetails
  coding_details : CodingDetails
  tests : List TestPasses
deriving DecidableEq, Repr

/-- ollama_etch_tester.test_model: composes both batteries, aggregates the
truthy latencies, and assembles the report. The `repeatN` argument embeds
the Python `repeat` parameter. -/
def testModel (chat : String → String → ChatRes) (exec : ℕ → ExecOutcome)
    (unescape : String → String) (model : String) (repeatN : ℕ) : Report :=
  let smart := runSmartnessTests chat model
  let coding := runCodingTests chat exec unescape model
  let lats := ((smart.tests.map (fun t => t.latency_s)) ++
      (coding.tests.map (fun t => t.latency_s))).filter (fun x => !(x = 0))
  let stats : LatencyStats :=
    if lats.isEmpty then ⟨none, none, none, none⟩
    else ⟨some (pyRound 4 (meanQ lats)), some (pyRound 4 (medianQ lats)),
          some (pyRound 4 (minQ lats)), some (pyRound 4 (maxQ lats))⟩
  { model := model
    latency_stats := stats
    smartness_score := some smart.score
    code_score := some coding.score
    smartness_details :=
      ⟨smart.score, toString smart.earned_points ++ "/" ++ toString smart.total_points,
       smart.category_scores⟩
    coding_details :=
      ⟨coding.score, toString coding.earned_points ++ "/" ++ toString coding.total_points,
       coding.difficulty_scores⟩
    tests := [⟨"smartness", smart.tests.map smartPassLine⟩,
              ⟨"coding", coding.tests.map codingPassLine⟩] }

/-! ## app.py — top-performer summary of `start_run` (lines 192-215) -/

/-- Python `min(ms, key=...)`: first element with minimal key. -/
def pyMinBy {α β : Type*} [LinearOrder β] (key : α → β) : List α → Option α
  | [] => none
  | x :: xs => some (xs.foldl (fun acc y => if key y < key acc then y else acc) x)

/-- Python `max(ms, key=...)`: first element with maximal key. -/
def pyMaxBy {α β : Type*} [LinearOrder β] (key : α → β) : List α → Option α
  | [] => none
  | x :: xs => some (xs.foldl (fun acc y => if key acc < key y then y else acc) x)

/-- Key of the `fastest` selection (line 197):
`(m.get('latency_stats') or {}).get('mean') or float('inf')` — a missing
or 0.0 mean is keyed as infinity. -/
def fastKey (m : Report) : WithTop ℚ :=
  match m.latency_stats.mean with
  | some x => if x = 0 then ⊤ else (x : WithTop ℚ)
  | none => ⊤

/-- Key of the best-score selections (lines 202 and 208):
`(score is not None) and float(score) or -1` — None is keyed as −1, and
so is a 0.0 score, because `float(0.0)` is falsy and the `and/or` chain
then falls through to `-1`. -/
def scoreKey (score : Report → Option ℚ) (m : Report) : ℚ :=
  match score m with
  | some s => if s = 0 then -1 else s
  | none => -1

/-- The `best_code`/`best_smart` computation: take the max under
`scoreKey`, then report it only if its own score is not None. -/
def bestBy (score : Report → Option ℚ) (ms : List Report) : Option (String × ℚ) :=
  match pyMaxBy (scoreKey score) ms with
  | none => none
  | some m =>
    match score m with
    | some s => some (m.model, s)
    | none => none

/-- The `top_summary` dict: `fastest` (model and its mean, always present
when `ms` is nonempty), `best_code` and `best_smart`. -/
structure TopSummary where
  fastest : Option (String × Option ℚ)
  best_code : Option (String × ℚ)
  best_smart : Option (String × ℚ)
deriving DecidableEq, Repr

/-- app.py lines 192-215: the top-performer computation over
`summary['models_tested']`. -/
def computeTop (ms : List Report) : TopSummary :=
  if ms.isEmpty then ⟨none, none, none⟩
  else
    { fastest :=
        match pyMinBy fastKey ms with
        | some m => some (m.model, m.latency_stats.mean)
        | none => none,
      best_code := bestBy (fun m => m.code_score) ms,
      best_smart := bestBy (fun m => m.smartness_score) ms }

/-! ## ollama_etch_tester.py — `_get_response_text` (lines 17-30) -/

/-- A Python dict response, at the granularity `_get_response_text` reads
it: `resp.get('message', {}).get('content')`, `resp.get('response')`,
`resp.get('text')`, and the `str(resp)` rendering. -/
structure RespDict where
  message_content : Option String
  response : Option String
  text : Option String
  strRender : String
deriving DecidableEq, Repr

/-- An object response, read through `getattr` with the same fallbacks. -/
structure RespObj where
  text : Option String
  response : Option String
  content : Option String
  message_content : Option String
  strRender : String
deriving DecidableEq, Repr

/-- The response shapes `_get_response_text` distinguishes. -/
inductive Resp where
  | pyNone
  | pyStr (s : String)
  | pyDict (d : RespDict)
  | pyObj (o : RespObj)

/-- Python `a or b` on optional strings: keep `a` when truthy. -/
def pyOr (a b : Option String) : Option String :=
  match a with
  | some s => if s = "" then b else some s
  | none => b

/-- Python `a or b` where `b` is a (always returned) final string. -/
def pyOrStr (a : Option String) (b : String) : String :=
  match a with
  | some s => if s = "" then b else s
  | none => b

/-- ollama_etch_tester._get_response_text. -/
def getResponseText : Resp → Option String
  | .pyNone => none
  | .pyStr s => some s
  | .pyDict d =>
    some (pyOrStr (pyOr (pyOr d.message_content d.response) d.text) d.strRender)
  | .pyObj o =>
    some (pyOrStr (pyOr (pyOr (pyOr o.text o.response) o.content) o.message_content)
      o.strRender)

/-! ## Auxiliary predicates over mutation sequences, and concrete values
used in the theorems below. -/

/-- Mutations that do not touch the status field. -/
def quietOp : RegOp → Bool
  | .appendMsg => true
  | .setProgress _ => true
  | _ => false

/-- All steps taken from `s` along `ops` are allowed lifecycle steps. -/
def okFrom (s : St) : List RegOp → Bool
  | [] => true
  | op :: ops => okStep s (stepSt s op) && okFrom (stepSt s op) ops

/-- Status `t` is visited when executing `ops` from `s`. -/
def reaches (s : St) (ops : List RegOp) (t : St) : Bool :=
  match ops with
  | [] => s = t
  | op :: rest => s = t || reaches (stepSt s op) rest t

/-- The `bg` environment in which `client.list()` raises
(and the DB save of the error-bearing summary succeeds). -/
def envListRaises : BgEnv := ⟨true, false, 0, 0, true⟩

/-- A normal `bg` environment: listing succeeds, two models, DB save ok. -/
def envNormal : BgEnv := ⟨false, false, 0, 2, true⟩

/-- A benign source defining `solve`, used as a sandbox argument. -/
def codeSolve : String := "def solve(x):\n    return 1"

/-- A source containing the deny-listed substring `os.system`. -/
def codeDanger : String := "x = os.system"

/-- A source that defines `solve` but prints a forged harness report and
then aborts at top level (`raise SystemExit`) so the harness's own
`print` never runs; it contains no deny-listed substring. -/
def codeForge : String :=
  "def solve(x):\n    return x\nimport json as j\nprint(j.dumps(dict(passed=10, total=1, results=[])))\nraise SystemExit\n"

/-- The stdout such a source leaves behind: a single valid JSON document. -/
def forgedStdout : String :=
  "\x7b\x22passed\x22: 10, \x22total\x22: 1, \x22results\x22: []\x7d"

/-- The same forging source, this time printing a negative passed count. -/
def codeForgeNeg : String :=
  "def solve(x):\n    return x\nimport json as j\nprint(j.dumps(dict(passed=-1, total=2, results=[])))\nraise SystemExit\n"

/-- The stdout the negative-count forging source leaves behind. -/
def forgedStdoutNeg : String :=
  "\x7b\x22passed\x22: -1, \x22total\x22: 2, \x22results\x22: []\x7d"

/-- A one-case test list. -/
def tests1 : List (PyVal × PyVal) := [(.vInt 1, .vInt 1)]

/-- An all-`none` latency_stats value. -/
def statsNone : LatencyStats := ⟨none, none, none, none⟩

/-- A models_tested entry whose code_score is None. -/
def repNullCode : Report :=
  ⟨"a", statsNone, some 50, none, ⟨0, "0/100", ⟨0, 0, 0⟩⟩, ⟨0, "0/150", ⟨0, 0, 0⟩⟩, []⟩

/-- A models_tested entry whose code_score is the float 0.0. -/
def repZeroCode : Report :=
  ⟨"b", statsNone, some 60, some 0, ⟨0, "0/100", ⟨0, 0, 0⟩⟩, ⟨0, "0/150", ⟨0, 0, 0⟩⟩, []⟩

/-- A models_tested entry with positive scores and latencies. -/
def repGood : Report :=
  ⟨"c", ⟨some 1, some 1, some 1, some 1⟩, some 80, some 70,
   ⟨80, "80/100", ⟨0, 0, 0⟩⟩, ⟨70, "105/150", ⟨0, 0, 0⟩⟩, []⟩

/-- A registry entry used in the registry theorems. -/
def runA : RunR ℕ := ⟨"r1", .pending, [], 0, ⟨"h", [], 1⟩, none⟩

/-- A one-entry registry holding `runA` at key "r1". -/
def reg0 : Registry ℕ := fun k => if k = "r1" then some runA else none

/-! # Helper lemmas -/

/-- A string containing a nonempty substring is nonempty. -/
theorem ne_empty_of_strContains {code p : String} (h : strContains code p = true)
    (hp : p.toList ≠ []) : code ≠ "" := by
  intro hc
  subst hc
  unfold strContains listIsInfix at h
  simp only [List.any_eq_true, List.mem_range] at h
  obtain ⟨i, _, hpre⟩ := h
  have hpre2 := List.isPrefixOf_iff_prefix.mp hpre
  have h0 : p.toList <+: ([] : List Char) := by simpa using hpre2
  exact hp (List.prefix_nil.mp h0)

/-- `progressBefore` is floor division on naturals. -/
theorem progressBefore_eq (i t : ℕ) : progressBefore i t = (i - 1) * 100 / t := by
  unfold progressBefore
  rw [show ((i - 1 : ℕ) : ℚ) / (t : ℚ) * 100 = (((i - 1) * 100 : ℕ) : ℚ) / (t : ℚ) by
    push_cast; ring]
  rw [Nat.floor_div_nat, Nat.floor_natCast]

/-- `progressAfter` is floor division on naturals. -/
theorem progressAfter_eq (i t : ℕ) : progressAfter i t = i * 95 / t := by
  unfold progressAfter
  rw [show ((i : ℕ) : ℚ) / (t : ℚ) * 95 = ((i * 95 : ℕ) : ℚ) / (t : ℚ) by push_cast; ring]
  rw [Nat.floor_div_nat, Nat.floor_natCast]

/-! # C10 — `_get_response_text` falls through falsy matched fields -/

/-- C10: for a dict response whose message.content is the empty string and
which has no response/text keys, `_get_response_text` returns the
`str(resp)` rendering: falsy values of matched fields fall through. -/
theorem c10_dict_falsy_fallthrough (d : RespDict)
    (h1 : d.message_content = some "") (h2 : d.response = none)
    (h3 : d.text = none) :
    getResponseText (.pyDict d) = some d.strRender := by
  simp [getResponseText, pyOr, pyOrStr, h1, h2, h3]

/-- Witness for C10 at a concrete dict. -/
theorem c10_dict_falsy_fallthrough_witness :
    getResponseText (.pyDict ⟨some "", none, none, "DICT"⟩) = some "DICT" :=
  c10_dict_falsy_fallthrough ⟨some "", none, none, "DICT"⟩ rfl rfl rfl

/-! # C8 — registry mutations are no-ops on unknown run_ids;
`set_result` effect on a present run -/

/-- C8: every mutation is a no-op (the whole registry map is unchanged,
and nothing can raise — the operations are total functions) when the
run_id is absent; when it is present, `set_result` sets status "done",
stores the result, and sets progress to 100. -/
theorem c8_registry_mutations {σ : Type} (reg : Registry σ) (id : String) :
    (reg id = none →
      set_running reg id = reg ∧
      (∀ m, append_message reg id m = reg) ∧
      (∀ p, set_progress reg id p = reg) ∧
      (∀ s, set_result reg id s = reg) ∧
      (∀ m, set_error reg id m = reg)) ∧
    (∀ r s, reg id = some r →
      set_result reg id s id =
        some { r with status := .done, result := some s, progress := 100 }) := by
  constructor
  · intro h
    have noop : ∀ f, regUpdate reg id f = reg := by
      intro f
      funext k
      unfold regUpdate
      by_cases hk : k = id
      · subst hk; simp [h]
      · simp [hk]
    exact ⟨noop _, fun _ => noop _, fun _ => noop _, fun _ => noop _, fun _ => noop _⟩
  · intro r s h
    unfold set_result regUpdate
    simp [h]

/-- Witness for C8: a no-op on the absent key "zz" of `reg0`, and the
`set_result` effect on the present key "r1". -/
theorem c8_registry_mutations_witness :
    set_running reg0 "zz" = reg0 ∧
    set_result reg0 "r1" 7 "r1" =
      some { runA with status := .done, result := some 7, progress := 100 } :=
  ⟨((c8_registry_mutations reg0 "zz").1 rfl).1,
   (c8_registry_mutations reg0 "r1").2 runA 7 rfl⟩

/-! # C5 — partial credit formula of `_run_coding_tests` -/

/-- C5: for every coding test, the points earned (as computed at
ollama_etch_tester.py lines 419-422 from the `(passed, total)` pair the
sandbox returned) equal `floor(points × passed / total)` when total > 0
and 0 otherwise. (`passed ≥ 0` holds on every outcome the harness itself
produces; for a negative forged `passed`, `int()` truncation and floor
would differ.) -/
theorem c5_partial_credit (points : ℕ) (passed total : ℤ) (hp : 0 ≤ passed) :
    pointsEarnedCode passed total points =
      if 0 < total then ⌊(points : ℚ) * (passed : ℚ) / (total : ℚ)⌋ else 0 := by
  unfold pointsEarnedCode pyInt
  by_cases ht : 0 < total
  · have htq : (0 : ℚ) ≤ (total : ℚ) := by exact_mod_cast ht.le
    have hx : (0 : ℚ) ≤ (passed : ℚ) / (total : ℚ) * (points : ℚ) := by
      apply mul_nonneg (div_nonneg (by exact_mod_cast hp) htq)
      exact Nat.cast_nonneg points
    rw [if_pos ht, if_pos ht, if_pos hx]
    congr 1
    ring
  · rw [if_neg ht, if_neg ht]

/-- Witness for C5 at passed=3, total=4, points=25. -/
theorem c5_partial_credit_witness :
    pointsEarnedCode 3 4 25 =
      if (0 : ℤ) < 4 then ⌊((25 : ℕ) : ℚ) * ((3 : ℤ) : ℚ) / ((4 : ℤ) : ℚ)⌋ else 0 :=
  c5_partial_credit 25 3 4 (by decide)

set_option maxRecDepth 100000 in
/-- Counterexample to C5: the pair `(passed, total)` returned by
`_run_code_safely` can carry a negative forged passed count (the same
stdout-forging mechanism that yields passed > total), and there `int()`
truncation toward zero disagrees with floor:
`int((-1 / 2) * 25) = -12` while `floor(25 · (-1) / 2) = -13`. -/
theorem c5_truncation_counterexample :
    runCodeSafely codeForgeNeg tests1 5
        (.finished forgedStdoutNeg "" (some ⟨none, some (-1), some 2, some []⟩)) =
      (-1, 2, []) ∧
    pointsEarnedCode (-1) 2 25 = -12 ∧
    (⌊((25 : ℕ) : ℚ) * ((-1 : ℤ) : ℚ) / ((2 : ℤ) : ℚ)⌋ : ℤ) = -13 ∧
    ¬(pointsEarnedCode (-1) 2 25 =
      if (0 : ℤ) < 2 then ⌊((25 : ℕ) : ℚ) * ((-1 : ℤ) : ℚ) / ((2 : ℤ) : ℚ)⌋ else 0) := by
  have h2 : pointsEarnedCode (-1) 2 25 = -12 := by
    norm_num [pointsEarnedCode, pyInt]
    rw [Int.ceil_eq_iff]
    norm_num
  have h3 : (⌊((25 : ℕ) : ℚ) * ((-1 : ℤ) : ℚ) / ((2 : ℤ) : ℚ)⌋ : ℤ) = -13 := by
    norm_num
  refine ⟨by decide, h2, h3, ?_⟩
  rw [if_pos (by decide : (0 : ℤ) < 2), h2, h3]
  decide

/-! # C3 — progress monotonicity of the orchestrator loop -/

/-- Counterexample to C3: with 23 selected models, the progress written
before testing model 22 is 91, but the progress written after completing
model 22 is 90 — the written sequence decreases. -/
theorem c3_progress_counterexample :
    progressBefore 22 23 = 91 ∧ progressAfter 22 23 = 90 ∧
      ¬(progressBefore 22 23 ≤ progressAfter 22 23) := by
  simp only [progressBefore_eq, progressAfter_eq]
  decide

/-- C3 amended: the triple (before model i, after model i, before model
i+1) is non-decreasing whenever i ≤ 20 (hence for every run with at most
20 selected models); for i ≥ 21 the first step can decrease. -/
theorem c3_progress_amended (i t : ℕ) (h1 : 1 ≤ i) (h2 : i ≤ 20) (h3 : i ≤ t) :
    progressBefore i t ≤ progressAfter i t ∧
      progressAfter i t ≤ progressBefore (i + 1) t := by
  simp only [progressBefore_eq, progressAfter_eq]
  constructor
  · exact Nat.div_le_div_right (by omega)
  · exact Nat.div_le_div_right (by omega)

/-- Witness for the amended C3 at i=3 of 5 models. -/
theorem c3_progress_amended_witness :
    progressBefore 3 5 ≤ progressAfter 3 5 ∧
      progressAfter 3 5 ≤ progressBefore 4 5 :=
  c3_progress_amended 3 5 (by decide) (by decide) (by decide)

/-! # C4 — the deny-list rejects without executing -/

/-- C4: for every source containing a deny-listed substring and every
non-empty test list, `_run_code_safely` returns the same value for every
subprocess outcome (the source is never executed), and that value is
`(0, len(test_cases), [forbidden-pattern detail])` naming a deny-listed
pattern present in the source. -/
theorem c4_denylist_rejects (code : String) (tests : List (PyVal × PyVal))
    (timeoutS : ℕ) (h : ∃ p ∈ dangerousPatterns, strContains code p = true)
    (ht : tests ≠ []) :
    ∀ o1 o2, runCodeSafely code tests timeoutS o1 = runCodeSafely code tests timeoutS o2 ∧
      ∃ p ∈ dangerousPatterns, strContains code p = true ∧
        runCodeSafely code tests timeoutS o1 =
          (0, (tests.length : ℤ), [Detail.errMsg ("Forbidden pattern: " ++ p)]) := by
  intro o1 o2
  obtain ⟨p, hp, hc⟩ := h
  have hpne : p.toList ≠ [] := by
    fin_cases hp <;> decide
  have hcode : code ≠ "" := ne_empty_of_strContains hc hpne
  have hsome : (dangerousPatterns.find? (fun q => strContains code q)).isSome :=
    List.find?_isSome.mpr ⟨p, hp, hc⟩
  obtain ⟨q, hq⟩ := Option.isSome_iff_exists.mp hsome
  refine ⟨?_, q, List.mem_of_find?_eq_some hq, List.find?_some hq, ?_⟩ <;>
    simp [runCodeSafely, hcode, hq]

/-- Witness for C4: a source containing `os.system`, two different
subprocess outcomes. -/
theorem c4_denylist_rejects_witness :
    runCodeSafely codeDanger tests1 5 .timeout =
        runCodeSafely codeDanger tests1 5 (.finished "x" "" none) ∧
      ∃ p ∈ dangerousPatterns, strContains codeDanger p = true ∧
        runCodeSafely codeDanger tests1 5 .timeout =
          (0, (tests1.length : ℤ), [Detail.errMsg ("Forbidden pattern: " ++ p)]) :=
  c4_denylist_rejects codeDanger tests1 5 (by decide) (by decide)
    .timeout (.finished "x" "" none)

/-! # C6 — timeout and diagnostic behavior of the sandbox -/

/-- Strings whose first characters differ are different. -/
theorem string_ne_of_head {a b : String} {c d : Char} {la lb : List Char}
    (ha : a.data = c :: la) (hb : b.data = d :: lb) (h : c ≠ d) : a ≠ b := by
  intro he
  rw [he, hb] at ha
  exact h (List.head_eq_of_cons_eq ha.symm)

/-- Appending preserves the head character of a nonempty string. -/
theorem data_append_cons (p q : String) {c : Char} {l : List Char}
    (h : p.data = c :: l) : (p ++ q).data = c :: (l ++ q.data) := by
  rw [String.data_append, h]
  rfl

set_option maxRecDepth 40000 in
/-- Counterexample to C6's stderr conjunct: on stdout "hello" (nonempty,
not JSON) with stderr "boom", the diagnostic contains the truncated
stdout and does not contain the stderr. -/
theorem c6_diag_counterexample :
    runCodeSafely codeSolve tests1 5 (.finished "hello" "boom" none) =
      (0, (tests1.length : ℤ), [Detail.errMsg ("Invalid JSON: " ++ "hello".take 100)]) ∧
    strContains ("Invalid JSON: " ++ "hello".take 100) "boom" = false := by
  constructor
  · decide
  · decide

/-- C6 amended: when the source passes the static screen, a timeout yields
`(0, len(test_cases), timeout-detail)` whose message is distinguishable
from every other failure message; empty stdout yields a diagnostic
containing the first 200 characters of stderr; nonempty unparseable
stdout yields a diagnostic containing the first 100 characters of stdout
(not stderr). -/
theorem c6_sandbox_failures (code : String) (tests : List (PyVal × PyVal))
    (timeoutS : ℕ) (hc : code ≠ "")
    (hd : ∀ p ∈ dangerousPatterns, strContains code p = false) :
    (runCodeSafely code tests timeoutS .timeout =
      (0, (tests.length : ℤ),
        [Detail.errMsg ("Execution timeout (" ++ toString timeoutS ++ "s)")])) ∧
    (∀ e parsed, runCodeSafely code tests timeoutS (.finished "" e parsed) =
      (0, (tests.length : ℤ),
        [Detail.errMsg ("No output. Stderr: " ++ e.take 200)])) ∧
    (∀ s e, s ≠ "" → runCodeSafely code tests timeoutS (.finished s e none) =
      (0, (tests.length : ℤ), [Detail.errMsg ("Invalid JSON: " ++ s.take 100)])) ∧
    (∀ (e s p : String), ("Execution timeout (" ++ toString timeoutS ++ "s)") ≠
        ("No output. Stderr: " ++ e.take 200) ∧
      ("Execution timeout (" ++ toString timeoutS ++ "s)") ≠
        ("Invalid JSON: " ++ s.take 100) ∧
      ("Execution timeout (" ++ toString timeoutS ++ "s)") ≠
        "No code extracted from response" ∧
      ("Execution timeout (" ++ toString timeoutS ++ "s)") ≠
        ("Forbidden pattern: " ++ p)) := by
  have hfind : dangerousPatterns.find? (fun p => strContains code p) = none :=
    List.find?_eq_none.mpr (fun p hp => by simp [hd p hp])
  have hET : ("Execution timeout (" ++ toString timeoutS ++ "s)").data =
      'E' :: ("xecution timeout (".data ++ (toString timeoutS ++ "s)").data) := by
    rw [show ("Execution timeout (" ++ toString timeoutS ++ "s)") =
      "Execution timeout (" ++ (toString timeoutS ++ "s)") by rw [String.append_assoc]]
    exact data_append_cons _ _ rfl
  refine ⟨?_, ?_, ?_, ?_⟩
  · simp [runCodeSafely, hc, hfind]
  · intro e parsed
    simp [runCodeSafely, hc, hfind]
  · intro s e hs
    simp [runCodeSafely, hc, hfind, hs]
  · intro e s p
    refine ⟨?_, ?_, ?_, ?_⟩
    · exact string_ne_of_head hET (data_append_cons "No output. Stderr: " _ rfl) (by decide)
    · exact string_ne_of_head hET (data_append_cons "Invalid JSON: " _ rfl) (by decide)
    · exact string_ne_of_head hET rfl (by decide)
    · exact string_ne_of_head hET (data_append_cons "Forbidden pattern: " _ rfl) (by decide)

/-- Witness for the amended C6: the timeout conjunct at a concrete benign
source. -/
theorem c6_sandbox_failures_witness :
    runCodeSafely codeSolve tests1 5 .timeout =
      (0, (tests1.length : ℤ),
        [Detail.errMsg ("Execution timeout (" ++ toString 5 ++ "s)")]) :=
  (c6_sandbox_failures codeSolve tests1 5 (by decide) (by decide)).1

/-! # C2 — passed ≤ total -/

set_option maxRecDepth 100000 in
/-- Counterexample to C2: `codeForge` defines `solve` and writes to stdout
before the harness can print, aborting the module so that only its forged
report reaches stdout; `json.loads` then succeeds on the forged document
and `_run_code_safely` returns passed=10 > total=1. -/
theorem c2_counterexample :
    runCodeSafely codeForge tests1 5
        (.finished forgedStdout "" (some ⟨none, some 10, some 1, some []⟩)) =
      (10, 1, []) ∧ ¬((10 : ℤ) ≤ 1) := by
  constructor
  · decide
  · decide

/-- C2 amended: the sandbox returns passed ≤ total on every outcome the
harness itself can produce — timeout, empty stdout, unparseable stdout,
the no-callable report, or the harness's own pass/total report (where
passed is a count over the test cases) — but not for every source: a
source that suppresses the harness output and forges its own stdout can
make passed exceed total. -/
theorem c2_passed_le_total (code : String) (tests : List (PyVal × PyVal))
    (timeoutS : ℕ) (fn : PyVal → Except String PyVal) (o : ExecOutcome)
    (h : HonestOutcome fn tests o) :
    (runCodeSafely code tests timeoutS o).1 ≤ (runCodeSafely code tests timeoutS o).2.1 := by
  have hlen : (0 : ℤ) ≤ (tests.length : ℤ) := Int.natCast_nonneg _
  unfold runCodeSafely
  by_cases hc : code = ""
  · simp [hc, hlen]
  · simp only [if_neg hc]
    cases hfind : dangerousPatterns.find? (fun p => strContains code p) with
    | some p => simpa using hlen
    | none =>
      rcases h with rfl | ⟨e, parsed, rfl⟩ | ⟨s, e, rfl⟩ | ⟨s, e, rfl⟩ | ⟨s, e, rfl⟩
      · simpa using hlen
      · simpa using hlen
      · by_cases hs : s = "" <;> simp [hs, hlen]
      · by_cases hs : s = "" <;> simp [hs, hlen, noFnJson]
      · by_cases hs : s = ""
        · simp [hs, hlen]
        · simp only [if_neg hs, harnessJson, Option.getD_some]
          exact_mod_cast List.countP_le_length (fun x => harnessCasePassed fn x)

/-- Witness for the amended C2, at a timeout outcome. -/
theorem c2_passed_le_total_witness :
    (runCodeSafely codeSolve tests1 5 .timeout).1 ≤
      (runCodeSafely codeSolve tests1 5 .timeout).2.1 :=
  c2_passed_le_total codeSolve tests1 5 (fun _ => .ok (.vInt 1)) .timeout (Or.inl rfl)

/-! # C9 — `test_model` ignores its `repeat` parameter -/

/-- C9: `test_model` performs the same fixed battery (each smartness and
coding test exactly once, in table order) and, for identical client and
sandbox behavior, returns reports that do not depend on the `repeat`
argument at all. -/
theorem c9_repeat_irrelevant (chat : String → String → ChatRes)
    (exec : ℕ → ExecOutcome) (unescape : String → String) (model : String)
    (r1 r2 : ℕ) :
    testModel chat exec unescape model r1 = testModel chat exec unescape model r2 ∧
    (runSmartnessTests chat model).tests.map (fun t => t.name) =
      smartnessTests.map (fun t => t.name) ∧
    (runCodingTests chat exec unescape model).tests.map (fun t => t.name) =
      codingTests.map (fun t => t.name) := by
  refine ⟨rfl, rfl, ?_⟩
  have hname : ∀ i t, (runCodingTest chat exec unescape model i t).name = t.name := by
    intro i t
    unfold runCodingTest
    cases h : (chat model t.prompt).err <;> simp [h]
  show ((codingTests.enum.map fun p => runCodingTest chat exec unescape model p.1 p.2).map
      fun t => t.name) = codingTests.map fun t => t.name
  rw [List.map_map]
  have : ((fun t : CodingTestResult => t.name) ∘
      fun p : ℕ × CodingTest => runCodingTest chat exec unescape model p.1 p.2) =
      fun p : ℕ × CodingTest => p.2.name := by
    funext p
    exact hname p.1 p.2
  rw [this, show (fun p : ℕ × CodingTest => p.2.name) =
    (fun t : CodingTest => t.name) ∘ Prod.snd from rfl, ← List.map_map, List.enum_map_snd]

/-! # C7 — top-performer selection of `start_run` -/

/-- Python `max`'s fold keeps the first maximum: the result is either the
seed (all keys ≤ its key) or an element of the list, strictly greater
than the seed and all elements before it, and ≥ all elements after it. -/
theorem foldlMax_spec {α β : Type*} [LinearOrder β] (key : α → β) :
    ∀ (xs : List α) (acc : α),
      (xs.foldl (fun a y => if key a < key y then y else a) acc = acc ∧
        ∀ y ∈ xs, key y ≤ key acc) ∨
      (∃ pre r post, xs = pre ++ r :: post ∧
        xs.foldl (fun a y => if key a < key y then y else a) acc = r ∧
        key acc < key r ∧ (∀ y ∈ pre, key y < key r) ∧ (∀ y ∈ post, key y ≤ key r)) := by
  intro xs
  induction xs with
  | nil => intro acc; left; exact ⟨rfl, by simp⟩
  | cons x xs ih =>
    intro acc
    by_cases hx : key acc < key x
    · rcases ih x with ⟨heq, hb⟩ | ⟨pre, r, post, hxs, heq, hlt, hpre, hpost⟩
      · right
        exact ⟨[], x, xs, rfl, by simp [hx, heq], hx, by simp, hb⟩
      · right
        refine ⟨x :: pre, r, post, by rw [hxs, List.cons_append], by simp [hx, heq], hx.trans hlt, ?_, hpost⟩
        intro y hy
        rcases List.mem_cons.mp hy with rfl | hy
        · exact hlt
        · exact hpre y hy
    · have hle : key x ≤ key acc := not_lt.mp hx
      rcases ih acc with ⟨heq, hb⟩ | ⟨pre, r, post, hxs, heq, hlt, hpre, hpost⟩
      · left
        refine ⟨by simp [hx, heq], ?_⟩
        intro y hy
        rcases List.mem_cons.mp hy with rfl | hy
        · exact hle
        · exact hb y hy
      · right
        refine ⟨x :: pre, r, post, by rw [hxs, List.cons_append], by simp [hx, heq], hlt, ?_, hpost⟩
        intro y hy
        rcases List.mem_cons.mp hy with rfl | hy
        · exact lt_of_le_of_lt hle hlt
        · exact hpre y hy

/-- Python `min`'s fold keeps the first minimum (dual of `foldlMax_spec`). -/
theorem foldlMin_spec {α β : Type*} [LinearOrder β] (key : α → β) :
    ∀ (xs : List α) (acc : α),
      (xs.foldl (fun a y => if key y < key a then y else a) acc = acc ∧
        ∀ y ∈ xs, key acc ≤ key y) ∨
      (∃ pre r post, xs = pre ++ r :: post ∧
        xs.foldl (fun a y => if key y < key a then y else a) acc = r ∧
        key r < key acc ∧ (∀ y ∈ pre, key r < key y) ∧ (∀ y ∈ post, key r ≤ key y)) := by
  intro xs
  induction xs with
  | nil => intro acc; left; exact ⟨rfl, by simp⟩
  | cons x xs ih =>
    intro acc
    by_cases hx : key x < key acc
    · rcases ih x with ⟨heq, hb⟩ | ⟨pre, r, post, hxs, heq, hlt, hpre, hpost⟩
      · right
        exact ⟨[], x, xs, rfl, by simp [hx, heq], hx, by simp, hb⟩
      · right
        refine ⟨x :: pre, r, post, by rw [hxs, List.cons_append], by simp [hx, heq], hlt.trans hx, ?_, hpost⟩
        intro y hy
        rcases List.mem_cons.mp hy with rfl | hy
        · exact hlt
        · exact hpre y hy
    · have hle : key acc ≤ key x := not_lt.mp hx
      rcases ih acc with ⟨heq, hb⟩ | ⟨pre, r, post, hxs, heq, hlt, hpre, hpost⟩
      · left
        refine ⟨by simp [hx, heq], ?_⟩
        intro y hy
        rcases List.mem_cons.mp hy with rfl | hy
        · exact hle
        · exact hb y hy
      · right
        refine ⟨x :: pre, r, post, by rw [hxs, List.cons_append], by simp [hx, heq], hlt, ?_, hpost⟩
        intro y hy
        rcases List.mem_cons.mp hy with rfl | hy
        · exact lt_of_lt_of_le hlt hle
        · exact hpre y hy

/-- `pyMaxBy` returns the first element attaining the maximal key. -/
theorem pyMaxBy_spec {α β : Type*} [LinearOrder β] (key : α → β) (l : List α)
    (hl : l ≠ []) :
    ∃ pre r post, l = pre ++ r :: post ∧ pyMaxBy key l = some r ∧
      (∀ y ∈ pre, key y < key r) ∧ (∀ y ∈ post, key y ≤ key r) := by
  cases l with
  | nil => exact absurd rfl hl
  | cons x xs =>
    rcases foldlMax_spec key xs x with ⟨heq, hb⟩ | ⟨pre, r, post, hxs, heq, hlt, hpre, hpost⟩
    · exact ⟨[], x, xs, rfl, by simp [pyMaxBy, heq], by simp, hb⟩
    · refine ⟨x :: pre, r, post, by rw [hxs, List.cons_append], by simp [pyMaxBy, heq], ?_, hpost⟩
      intro y hy
      rcases List.mem_cons.mp hy with rfl | hy
      · exact hlt
      · exact hpre y hy

/-- `pyMinBy` returns the first element attaining the minimal key. -/
theorem pyMinBy_spec {α β : Type*} [LinearOrder β] (key : α → β) (l : List α)
    (hl : l ≠ []) :
    ∃ pre r post, l = pre ++ r :: post ∧ pyMinBy key l = some r ∧
      (∀ y ∈ pre, key r < key y) ∧ (∀ y ∈ post, key r ≤ key y) := by
  cases l with
  | nil => exact absurd rfl hl
  | cons x xs =>
    rcases foldlMin_spec key xs x with ⟨heq, hb⟩ | ⟨pre, r, post, hxs, heq, hlt, hpre, hpost⟩
    · exact ⟨[], x, xs, rfl, by simp [pyMinBy, heq], by simp, hb⟩
    · refine ⟨x :: pre, r, post, by rw [hxs, List.cons_append], by simp [pyMinBy, heq], ?_, hpost⟩
      intro y hy
      rcases List.mem_cons.mp hy with rfl | hy
      · exact hlt
      · exact hpre y hy

/-- Characterization of `bestBy`: whatever it reports is the first
maximum under the and/or key with a non-None score; and it reports
something whenever some model has a positive score. -/
theorem bestBy_spec (score : Report → Option ℚ) (ms : List Report) (hms : ms ≠ []) :
    (∀ mdl s, bestBy score ms = some (mdl, s) →
      ∃ m pre post, ms = pre ++ m :: post ∧ mdl = m.model ∧ score m = some s ∧
        (∀ y ∈ pre, scoreKey score y < scoreKey score m) ∧
        (∀ y ∈ post, scoreKey score y ≤ scoreKey score m)) ∧
    ((∃ m ∈ ms, ∃ s, score m = some s ∧ 0 < s) → (bestBy score ms).isSome = true) := by
  obtain ⟨pre, r, post, hsplit, hmax, hpre, hpost⟩ := pyMaxBy_spec (scoreKey score) ms hms
  have hub : ∀ y ∈ ms, scoreKey score y ≤ scoreKey score r := by
    rw [hsplit]
    intro y hy
    rcases List.mem_append.mp hy with hy | hy
    · exact (hpre y hy).le
    · rcases List.mem_cons.mp hy with rfl | hy
      · exact le_refl _
      · exact hpost y hy
  constructor
  · intro mdl s h
    unfold bestBy at h
    rw [hmax] at h
    cases hscore : score r with
    | none => simp [hscore] at h
    | some s2 =>
      simp only [hscore] at h
      have h2 : (r.model, s2) = (mdl, s) := Option.some.inj h
      refine ⟨r, pre, post, hsplit, (congrArg Prod.fst h2).symm, ?_, hpre, hpost⟩
      have h3 : s2 = s := congrArg Prod.snd h2
      rw [hscore, h3]
  · rintro ⟨m, hm, s, hs, hspos⟩
    have hkm : scoreKey score m = s := by
      unfold scoreKey
      rw [hs]
      simp [ne_of_gt hspos]
    have hkr : (0 : ℚ) < scoreKey score r := by
      have := hub m hm
      rw [hkm] at this
      exact lt_of_lt_of_le hspos this
    unfold bestBy
    rw [hmax]
    cases hscore : score r with
    | none =>
      exfalso
      have hkeq : scoreKey score r = -1 := by unfold scoreKey; rw [hscore]
      rw [hkeq] at hkr
      norm_num at hkr
    | some s2 => simp [hscore]

set_option maxRecDepth 40000 in
/-- Counterexample to C7: with a None-scored model first and a 0.0-scored
model second, the and/or key maps both to −1, `max` keeps the first
(None-scored) model, and the None filter then drops the `best_code` entry
entirely — the 0.0-scored model is not preferred over the None-scored
one. -/
theorem c7_zero_score_counterexample :
    repNullCode.code_score = none ∧ repZeroCode.code_score = some 0 ∧
      (computeTop [repNullCode, repZeroCode]).best_code = none := by
  refine ⟨rfl, rfl, ?_⟩
  decide

/-- C7 amended: `fastest` is the first model minimizing the mean-latency
key; a reported `best_code`/`best_smart` is the first model maximizing
the and/or key and always carries a non-None score, and one is reported
whenever some model has a positive score — but a non-None score of 0.0 is
keyed as −1, exactly like None, so it is preferred over None models only
by position. -/
theorem c7_top_selection (ms : List Report) (hms : ms ≠ []) :
    (∃ m pre post, ms = pre ++ m :: post ∧
      (computeTop ms).fastest = some (m.model, m.latency_stats.mean) ∧
      (∀ y ∈ pre, fastKey m < fastKey y) ∧ (∀ y ∈ post, fastKey m ≤ fastKey y)) ∧
    (∀ mdl s, (computeTop ms).best_code = some (mdl, s) →
      ∃ m pre post, ms = pre ++ m :: post ∧ mdl = m.model ∧ m.code_score = some s ∧
        (∀ y ∈ pre, scoreKey (fun x => x.code_score) y <
          scoreKey (fun x => x.code_score) m) ∧
        (∀ y ∈ post, scoreKey (fun x => x.code_score) y ≤
          scoreKey (fun x => x.code_score) m)) ∧
    (∀ mdl s, (computeTop ms).best_smart = some (mdl, s) →
      ∃ m pre post, ms = pre ++ m :: post ∧ mdl = m.model ∧
        m.smartness_score = some s ∧
        (∀ y ∈ pre, scoreKey (fun x => x.smartness_score) y <
          scoreKey (fun x => x.smartness_score) m) ∧
        (∀ y ∈ post, scoreKey (fun x => x.smartness_score) y ≤
          scoreKey (fun x => x.smartness_score) m)) ∧
    ((∃ m ∈ ms, ∃ s, m.code_score = some s ∧ 0 < s) →
      (computeTop ms).best_code.isSome = true) ∧
    ((∃ m ∈ ms, ∃ s, m.smartness_score = some s ∧ 0 < s) →
      (computeTop ms).best_smart.isSome = true) := by
  have hne : ms.isEmpty = false := by
    cases ms with
    | nil => exact absurd rfl hms
    | cons x xs => rfl
  have htop : computeTop ms =
      { fastest :=
          match pyMinBy fastKey ms with
          | some m => some (m.model, m.latency_stats.mean)
          | none => none,
        best_code := bestBy (fun m => m.code_score) ms,
        best_smart := bestBy (fun m => m.smartness_score) ms } := by
    unfold computeTop
    rw [hne]
    rfl
  obtain ⟨hcode, hcodes⟩ := bestBy_spec (fun m => m.code_score) ms hms
  obtain ⟨hsmart, hsmarts⟩ := bestBy_spec (fun m => m.smartness_score) ms hms
  obtain ⟨pre, r, post, hsplit, hmin, hpre, hpost⟩ := pyMinBy_spec fastKey ms hms
  refine ⟨⟨r, pre, post, hsplit, ?_, hpre, hpost⟩, ?_, ?_, ?_, ?_⟩
  · rw [htop]
    simp only [hmin]
  · intro mdl s h
    rw [htop] at h
    exact hcode mdl s h
  · intro mdl s h
    rw [htop] at h
    exact hsmart mdl s h
  · intro h
    rw [htop]
    exact hcodes h
  · intro h
    rw [htop]
    exact hsmarts h

/-- Witness for the amended C7: with one positively-scored model, a
best_code entry is reported. -/
theorem c7_top_selection_witness :
    (computeTop [repGood]).best_code.isSome = true :=
  (c7_top_selection [repGood] (by simp)).2.2.2.1
    ⟨repGood, by simp, 70, rfl, by norm_num⟩

/-! # C1 — run lifecycle of `start_run`'s background body -/

/-- Staying in place is always an allowed lifecycle step. -/
theorem okStep_self (s : St) : okStep s s = true := by
  cases s <;> rfl

/-- Quiet mutations do not change the status. -/
theorem stepSt_quiet {op : RegOp} (h : quietOp op = true) (s : St) : stepSt s op = s := by
  cases op <;> simp_all [quietOp, stepSt]

/-- A trace always starts at its start state. -/
theorem traceFrom_cons_head (s : St) (l : List RegOp) :
    ∃ rest, traceFrom s l = s :: rest := by
  cases l <;> exact ⟨_, rfl⟩

/-- The allowed-steps check of a trace, as a recursion over the ops. -/
theorem chainSt_traceFrom (l : List RegOp) :
    ∀ s, chainSt (traceFrom s l) = okFrom s l := by
  induction l with
  | nil => intro s; rfl
  | cons op ops ih =>
    intro s
    obtain ⟨rest, hr⟩ := traceFrom_cons_head (stepSt s op) ops
    show chainSt (s :: traceFrom (stepSt s op) ops) =
      (okStep s (stepSt s op) && okFrom (stepSt s op) ops)
    rw [hr]
    show (okStep s (stepSt s op) && chainSt (stepSt s op :: rest)) = _
    rw [← hr, ih]

/-- Trace membership, as a recursion over the ops. -/
theorem mem_traceFrom (l : List RegOp) :
    ∀ s t, (t ∈ traceFrom s l) ↔ reaches s l t = true := by
  induction l with
  | nil =>
    intro s t
    show t ∈ [s] ↔ decide (s = t) = true
    rw [List.mem_singleton, decide_eq_true_eq]
    exact eq_comm
  | cons op ops ih =>
    intro s t
    show t ∈ s :: traceFrom (stepSt s op) ops ↔
      (decide (s = t) || reaches (stepSt s op) ops t) = true
    rw [List.mem_cons, ih, Bool.or_eq_true, decide_eq_true_eq]
    constructor
    · rintro (rfl | h)
      · exact Or.inl rfl
      · exact Or.inr h
    · rintro (rfl | h)
      · exact Or.inl rfl
      · exact Or.inr h

/-- The final state, over an appended quiet prefix. -/
theorem finalFrom_append_quiet (l : List RegOp) :
    ∀ (rest : List RegOp) (s : St), (∀ op ∈ l, quietOp op = true) →
      finalFrom s (l ++ rest) = finalFrom s rest := by
  induction l with
  | nil => intro rest s _; rfl
  | cons op ops ih =>
    intro rest s h
    show finalFrom (stepSt s op) (ops ++ rest) = _
    rw [stepSt_quiet (h op (by simp)), ih rest s (fun o ho => h o (by simp [ho]))]

/-- The allowed-steps check ignores an appended quiet prefix. -/
theorem okFrom_append_quiet (l : List RegOp) :
    ∀ (rest : List RegOp) (s : St), (∀ op ∈ l, quietOp op = true) →
      okFrom s (l ++ rest) = okFrom s rest := by
  induction l with
  | nil => intro rest s _; rfl
  | cons op ops ih =>
    intro rest s h
    show (okStep s (stepSt s op) && okFrom (stepSt s op) (ops ++ rest)) = _
    rw [stepSt_quiet (h op (by simp)), okStep_self,
      ih rest s (fun o ho => h o (by simp [ho])), Bool.true_and]

/-- Reachability ignores an appended quiet prefix (up to the start state). -/
theorem reaches_append_quiet (l : List RegOp) :
    ∀ (rest : List RegOp) (s t : St), (∀ op ∈ l, quietOp op = true) →
      reaches s (l ++ rest) t = (decide (s = t) || reaches s rest t) := by
  induction l with
  | nil =>
    intro rest s t _
    cases rest with
    | nil =>
      show (decide (s = t) : Bool) = (decide (s = t) || decide (s = t))
      cases hd : decide (s = t) <;> simp [hd]
    | cons b r =>
      show (decide (s = t) || reaches (stepSt s b) r t) =
        (decide (s = t) || (decide (s = t) || reaches (stepSt s b) r t))
      cases hd : decide (s = t) <;> simp [hd]
  | cons op ops ih =>
    intro rest s t h
    show (decide (s = t) || reaches (stepSt s op) (ops ++ rest) t) = _
    rw [stepSt_quiet (h op (by simp)), ih rest s t (fun o ho => h o (by simp [ho]))]
    cases hd : decide (s = t) <;> simp [hd]

/-- Every op of a model-testing loop is quiet. -/
theorem modelLoopOps_quiet (t u : ℕ) : ∀ op ∈ modelLoopOps t u, quietOp op = true := by
  intro op hop
  simp [modelLoopOps, List.mem_flatMap] at hop
  obtain ⟨k, _, h⟩ := hop
  rcases h with rfl | rfl | rfl | rfl <;> rfl

/-- When listing succeeds, `_run_tests_sync` performs only quiet
mutations. -/
theorem runTestsSyncOps_quiet (env : BgEnv) (h : env.listRaises = false) :
    ∀ op ∈ runTestsSyncOps env, quietOp op = true := by
  intro op hop
  by_cases htr : env.testsRaise = true
  · simp [runTestsSyncOps, h, htr] at hop
    rcases hop with hop | rfl | rfl
    · exact modelLoopOps_quiet _ _ op hop
    · rfl
    · rfl
  · by_cases hnm : env.numModels = 0
    · simp [runTestsSyncOps, h, htr, hnm] at hop
    · simp [runTestsSyncOps, h, htr, hnm] at hop
      rcases hop with hop | rfl
      · exact modelLoopOps_quiet _ _ op hop
      · rfl

set_option maxRecDepth 8000 in
/-- Counterexample to C1: on the path where `client.list()` raises,
`_run_tests_sync` records the error (status "error") and returns an
error-bearing summary, which `bg` then hands to `set_result` — the run
reaches BOTH terminal states, first "error" then "done" (and "done" is
even set twice when the DB save succeeds). -/
theorem c1_lifecycle_counterexample :
    statusTrace envListRaises =
      [.pending, .running, .running, .error, .error, .done, .done, .done, .done, .done] ∧
    St.error ∈ statusTrace envListRaises ∧ St.done ∈ statusTrace envListRaises := by
  refine ⟨by decide, by decide, by decide⟩

/-- C1 amended: on every path where model listing succeeds, the status
takes only pending→running→{done,error} steps and exactly one terminal
state is reached; on the listing-exception path the run transitions
running→error→done, reaching both terminals, and ends "done". -/
theorem c1_lifecycle (env : BgEnv) :
    (env.listRaises = false →
      chainSt (statusTrace env) = true ∧
      ¬(St.done ∈ statusTrace env ∧ St.error ∈ statusTrace env) ∧
      (St.done ∈ statusTrace env ∨ St.error ∈ statusTrace env)) ∧
    (env.listRaises = true →
      St.error ∈ statusTrace env ∧ St.done ∈ statusTrace env ∧
      finalStatus env = .done) := by
  obtain ⟨lr, tr, ra, nm, dbo⟩ := env
  cases lr with
  | true =>
    constructor
    · intro h; simp at h
    · intro _
      cases dbo with
      | true =>
        refine ⟨?_, ?_, ?_⟩
        · show St.error ∈ ([.pending, .running, .running, .error, .error,
            .done, .done, .done, .done, .done] : List St)
          decide
        · show St.done ∈ ([.pending, .running, .running, .error, .error,
            .done, .done, .done, .done, .done] : List St)
          decide
        · rfl
      | false =>
        refine ⟨?_, ?_, ?_⟩
        · show St.error ∈ ([.pending, .running, .running, .error, .error,
            .done, .done, .done, .done] : List St)
          decide
        · show St.done ∈ ([.pending, .running, .running, .error, .error,
            .done, .done, .done, .done] : List St)
          decide
        · rfl
  | false =>
    constructor
    case right => intro h; simp at h
    intro _
    cases tr with
    | true =>
      have hq := runTestsSyncOps_quiet ⟨false, true, ra, nm, dbo⟩ rfl
      have hreach : ∀ u : St,
          reaches .pending (bgOps ⟨false, true, ra, nm, dbo⟩) u =
            (decide ((St.pending : St) = u) || (decide ((St.running : St) = u) ||
              (decide ((St.running : St) = u) || reaches .running [.setError] u))) := by
        intro u
        show (decide ((St.pending : St) = u) ||
          (decide ((St.running : St) = u) ||
            reaches .running
              (runTestsSyncOps ⟨false, true, ra, nm, dbo⟩ ++ [.setError]) u)) = _
        rw [reaches_append_quiet _ _ _ _ hq]
      refine ⟨?_, ?_, ?_⟩
      · unfold statusTrace
        rw [chainSt_traceFrom]
        show (okStep .pending .running &&
          (okStep .running .running &&
            okFrom .running
              (runTestsSyncOps ⟨false, true, ra, nm, dbo⟩ ++ [.setError]))) = true
        rw [okFrom_append_quiet _ _ _ hq]
        decide
      · unfold statusTrace
        rw [mem_traceFrom, mem_traceFrom, hreach, hreach]
        decide
      · unfold statusTrace
        rw [mem_traceFrom, mem_traceFrom, hreach, hreach]
        decide
    | false =>
      cases dbo with
      | true =>
        have hq := runTestsSyncOps_quiet ⟨false, false, ra, nm, true⟩ rfl
        have hreach : ∀ u : St,
            reaches .pending (bgOps ⟨false, false, ra, nm, true⟩) u =
              (decide ((St.pending : St) = u) || (decide ((St.running : St) = u) ||
                (decide ((St.running : St) = u) ||
                  reaches .running [.appendMsg, .setResult, .appendMsg, .appendMsg,
                    .setResult, .setProgress 100] u))) := by
          intro u
          show (decide ((St.pending : St) = u) ||
            (decide ((St.running : St) = u) ||
              reaches .running
                (runTestsSyncOps ⟨false, false, ra, nm, true⟩ ++
                  [.appendMsg, .setResult, .appendMsg, .appendMsg,
                   .setResult, .setProgress 100]) u)) = _
          rw [reaches_append_quiet _ _ _ _ hq]
        refine ⟨?_, ?_, ?_⟩
        · unfold statusTrace
          rw [chainSt_traceFrom]
          show (okStep .pending .running &&
            (okStep .running .running &&
              okFrom .running
                (runTestsSyncOps ⟨false, false, ra, nm, true⟩ ++
                  [.appendMsg, .setResult, .appendMsg, .appendMsg,
                   .setResult, .setProgress 100]))) = true
          rw [okFrom_append_quiet _ _ _ hq]
          decide
        · unfold statusTrace
          rw [mem_traceFrom, mem_traceFrom, hreach, hreach]
          decide
        · unfold statusTrace
          rw [mem_traceFrom, mem_traceFrom, hreach, hreach]
          decide
      | false =>
        have hq := runTestsSyncOps_quiet ⟨false, false, ra, nm, false⟩ rfl
        have hreach : ∀ u : St,
            reaches .pending (bgOps ⟨false, false, ra, nm, false⟩) u =
              (decide ((St.pending : St) = u) || (decide ((St.running : St) = u) ||
                (decide ((St.running : St) = u) ||
                  reaches .running [.appendMsg, .setResult, .appendMsg, .appendMsg,
                    .setProgress 100] u))) := by
          intro u
          show (decide ((St.pending : St) = u) ||
            (decide ((St.running : St) = u) ||
              reaches .running
                (runTestsSyncOps ⟨false, false, ra, nm, false⟩ ++
                  [.appendMsg, .setResult, .appendMsg, .appendMsg,
                   .setProgress 100]) u)) = _
          rw [reaches_append_quiet _ _ _ _ hq]
        refine ⟨?_, ?_, ?_⟩
        · unfold statusTrace
          rw [chainSt_traceFrom]
          show (okStep .pending .running &&
            (okStep .running .running &&
              okFrom .running
                (runTestsSyncOps ⟨false, false, ra, nm, false⟩ ++
                  [.appendMsg, .setResult, .appendMsg, .appendMsg,
                   .setProgress 100]))) = true
          rw [okFrom_append_quiet _ _ _ hq]
          decide
        · unfold statusTrace
          rw [mem_traceFrom, mem_traceFrom, hreach, hreach]
          decide
        · unfold statusTrace
          rw [mem_traceFrom, mem_traceFrom, hreach, hreach]
          decide

/-- Witness for the amended C1: the normal path `envNormal` (listing
succeeds, two models, DB save ok). -/
theorem c1_lifecycle_witness :
    chainSt (statusTrace envNormal) = true ∧
    ¬(St.done ∈ statusTrace envNormal ∧ St.error ∈ statusTrace envNormal) ∧
    (St.done ∈ statusTrace envNormal ∨ St.error ∈ statusTrace envNormal) :=
  (c1_lifecycle envNormal).1 rfl
